import Mathlib

/-!
Verification development for the Vibe Architect repository: a shallow
embedding of its prompt-chunk parser, pipeline controller, refinement
controller and repository fetcher, together with theorems settling the
specified properties.
-/

namespace VibeArch

/-! ## Prompt chunk parser (`parsePrompts` in the application module)

The source parses with the JavaScript regex
`/=== PROMPT (\d+): (.*?) ===([\s\S]*?)(?=(=== PROMPT|\z))/g` via
`text.matchAll`.  In a JavaScript regex without the `u` flag, `\z` is an
identity escape matching the literal character `z` (JavaScript has no
end-of-input `\z` anchor), so the lookahead succeeds exactly when the
remaining text starts with `=== PROMPT` or with the letter `z`.  The
embedding below reproduces the engine's leftmost-match / lazy-quantifier
backtracking behaviour over `List Char`. -/

structure ParsedPrompt where
  id : String
  title : String
  content : String
  deriving DecidableEq, Repr

/-- Characters treated as line terminators by the JavaScript `.` metacharacter. -/
def isLineTerm (c : Char) : Bool :=
  c = '\n' || c = '\r' || c = '\u2028' || c = '\u2029'

/-- The zero-width lookahead `(?=(=== PROMPT|\z))`: succeeds when the rest of
the input starts with `=== PROMPT` or with a literal `z`. -/
def lookaheadOk (s : List Char) : Bool :=
  "=== PROMPT".data.isPrefixOf s || s.head? = some 'z'

/-- Lazy match of `([\s\S]*?)` up to the first position where the lookahead
succeeds; returns the matched content and the rest of the input. -/
def tryContent : List Char → Option (List Char × List Char)
  | [] => if lookaheadOk [] then some ([], []) else none
  | c :: t =>
    if lookaheadOk (c :: t) then some ([], c :: t)
    else
      match tryContent t with
      | some (con, rest) => some (c :: con, rest)
      | none => none

/-- Lazy match of `(.*?) ===` followed by a successful content match: title
candidates (runs of non-line-terminator characters) are tried shortest first,
each requiring a literal ` ===` and then a successful `tryContent`. -/
def tryTitle : List Char → Option (List Char × List Char × List Char)
  | [] => none
  | c :: t =>
    let tryHere : Option (List Char × List Char × List Char) :=
      if " ===".data.isPrefixOf (c :: t) then
        match tryContent ((c :: t).drop 4) with
        | some (con, rest) => some (([] : List Char), con, rest)
        | none => none
      else none
    match tryHere with
    | some r => some r
    | none =>
      if isLineTerm c then none
      else
        match tryTitle t with
        | some (ti, con, rest) => some (c :: ti, con, rest)
        | none => none

/-- Strip a literal prefix, or fail. -/
def stripPre (pat s : List Char) : Option (List Char) :=
  if pat.isPrefixOf s then some (s.drop pat.length) else none

/-- Attempt the whole regex at the current position: literal `=== PROMPT `,
greedy `(\d+)`, literal `: `, then title/content.  Returns the digit group,
title group, content group, and the remainder of the input after the match. -/
def matchAt (s : List Char) : Option (List Char × List Char × List Char × List Char) :=
  match stripPre "=== PROMPT ".data s with
  | none => none
  | some s1 =>
    let ds := s1.takeWhile Char.isDigit
    if ds.isEmpty then none
    else
      match stripPre ": ".data (s1.dropWhile Char.isDigit) with
      | none => none
      | some s2 =>
        match tryTitle s2 with
        | some (ti, con, rest) => some (ds, ti, con, rest)
        | none => none

/-- Global scan as performed by `matchAll`: try the regex at each position,
resuming after the end of each successful match.  Fuel bounds the scan; the
input length suffices since every step consumes at least one character. -/
def scan : Nat → List Char → List (List Char × List Char × List Char)
  | 0, _ => []
  | _ + 1, [] => []
  | fuel + 1, c :: t =>
    match matchAt (c :: t) with
    | some (ds, ti, con, rest) => (ds, ti, con) :: scan fuel rest
    | none => scan fuel t

/-- Whitespace set of JavaScript `String.prototype.trim` (ASCII part plus the
common Unicode members). -/
def isJsWs (c : Char) : Bool :=
  c = ' ' || c = '\t' || c = '\n' || c = '\r' || c = '\x0b' || c = '\x0c' ||
  c = '\xa0' || c = '\u2028' || c = '\u2029' || c = '\uFEFF'

/-- JavaScript `trim`: drop leading and trailing whitespace. -/
def trimChars (l : List Char) : List Char :=
  ((l.dropWhile isJsWs).reverse.dropWhile isJsWs).reverse

/-- The parser: one `ParsedPrompt` per regex match (content trimmed), or a
single synthetic `Complete Mission` chunk when there is no match. -/
def parsePrompts (text : String) : List ParsedPrompt :=
  let ms := scan text.data.length text.data
  if ms.isEmpty then [⟨"1", "Complete Mission", text⟩]
  else ms.map fun m => ⟨⟨m.1⟩, ⟨m.2.1⟩, ⟨trimChars m.2.2⟩⟩

/-- A (well-formed) delimiter starts here: literal `=== PROMPT `, at least one
digit, `: `, then a run of non-line-terminator characters followed by ` ===`. -/
def titleClose : List Char → Bool
  | [] => false
  | c :: t => " ===".data.isPrefixOf (c :: t) || (!isLineTerm c && titleClose t)

/-- Decides whether a delimiter of the shape `=== PROMPT <number>: <title> ===`
begins at the head of the input. -/
def delimCheck (s : List Char) : Bool :=
  match stripPre "=== PROMPT ".data s with
  | none => false
  | some s1 =>
    !(s1.takeWhile Char.isDigit).isEmpty &&
      (match stripPre ": ".data (s1.dropWhile Char.isDigit) with
       | none => false
       | some s2 => titleClose s2)

/-- Decides whether a delimiter of the shape `=== PROMPT <number>: <title> ===`
occurs anywhere in the input. -/
def hasDelim : List Char → Bool
  | [] => false
  | c :: t => delimCheck (c :: t) || hasDelim t

/-! ## Pipeline controller

Shallow embedding of the application component (`executePipeline`,
`executeRefinement`, the `AgentState` record and the initial mission log).
The four external model calls and the repository fetch are supplied as an
environment of fallible functions; the embedding records every state the
controller commits (the `trace`) and every external call it performs with
the exact arguments (the `calls`), in order. -/

def INITIAL_MISSION_LOG : String :=
  "# MISSION CONTROL\n**Language:** TypeScript (.tsx)\n**Framework:** React 18+ (ESM)\n\n" ++
  "## ENVIRONMENT MANIFESTO (IMMUTABLE LAWS)\n" ++
  "* **SDK:** MUST use `@google/genai` (NOT `@google/generative-ai`).\n" ++
  "* **Styling:** Tailwind via CDN only. NO `.css` files. NO `styled-components`.\n" ++
  "* **Routing:** `HashRouter` only (No history API).\n" ++
  "* **Icons:** `lucide-react` only.\n" ++
  "* **Structure:** Flat root (./). NO `/src` folder. `index.tsx` is entry.\n" ++
  "* **TS Rules:** Use `interface` (not type). Use `enum` (not const enum).\n"

inductive AgentStatus where
  | IDLE
  | FETCHING_REPO
  | SCOUT_WORKING
  | ARCHITECT_WORKING
  | TASKMASTER_WORKING
  | REFINING
  | COMPLETED
  | ERROR
  deriving DecidableEq, Repr

structure RepoFile where
  path : String
  content : String
  size : Nat
  deriving DecidableEq, Repr

structure ImageRef where
  data : String
  mimeType : String
  deriving DecidableEq, Repr

structure AgentState where
  status : AgentStatus
  missionLog : String
  finalPrompt : Option String
  error : Option String
  deriving DecidableEq, Repr

/-- The initial component state (`useState` initializer in the source). -/
def initialAgentState : AgentState :=
  { status := .IDLE, missionLog := INITIAL_MISSION_LOG, finalPrompt := none, error := none }

/-- One external call performed by the controller, with its exact arguments. -/
inductive CallRec where
  | fetchCall (repoUrl : String)
  | scoutCall (objective errorFeedback : String) (files : List RepoFile) (images : List ImageRef)
  | architectCall (missionLog objective errorFeedback : String) (images : List ImageRef)
  | taskmasterCall (missionLog : String) (files : List RepoFile)
  | refinerCall (currentPrompts feedback missionLog : String) (files : List RepoFile)
  deriving DecidableEq, Repr

/-- External collaborators: the repository fetcher and the four agent calls,
each of which either returns text (or files) or fails with an error message. -/
structure PipelineEnv where
  fetchRepoContents : String → Except String (List RepoFile)
  runScoutAgent : String → String → List RepoFile → List ImageRef → Except String String
  runArchitectAgent : String → String → String → List ImageRef → Except String String
  runTaskmasterAgent : String → List RepoFile → Except String String
  runRefinerAgent : String → String → String → List RepoFile → Except String String

/-- JavaScript `err.message || fallback`: an empty message is falsy and is
replaced by the fallback. -/
def orDefault (s fallback : String) : String := if s = "" then fallback else s

/-- The generic catch-all message of `executePipeline`. -/
def pipelineFallbackMsg : String := "An unexpected error occurred in the pipeline."

/-- The catch-all message of `executeRefinement`. -/
def refineFallbackMsg : String := "Failed to refine instructions."

/-- Outcome of one `executePipeline` invocation: final committed state, the
`repoFilesRef` cell, all committed intermediate states in order, and all
external calls in order. -/
structure PipelineResult where
  state : AgentState
  repoFiles : List RepoFile
  trace : List AgentState
  calls : List CallRec
  deriving Repr

/-- `executePipeline` from the application module: guard on empty inputs,
reset, then fetch → Scout → Architect → Taskmaster with fail-fast error
handling (the `catch` block). -/
def executePipeline (env : PipelineEnv) (repoUrl objective errorFeedback : String)
    (referenceImages : List ImageRef) (st : AgentState) (repoFilesRef : List RepoFile) :
    PipelineResult :=
  if repoUrl = "" ∨ objective = "" then ⟨st, repoFilesRef, [], []⟩
  else
    let s1 : AgentState :=
      { st with status := .FETCHING_REPO, error := none,
                missionLog := INITIAL_MISSION_LOG, finalPrompt := none }
    match env.fetchRepoContents repoUrl with
    | .error e =>
      let sE := { s1 with status := .ERROR, error := some (orDefault e pipelineFallbackMsg) }
      ⟨sE, repoFilesRef, [s1, sE], [.fetchCall repoUrl]⟩
    | .ok files =>
      let s2 := { s1 with status := .SCOUT_WORKING }
      match env.runScoutAgent objective errorFeedback files referenceImages with
      | .error e =>
        let sE := { s2 with status := .ERROR, error := some (orDefault e pipelineFallbackMsg) }
        ⟨sE, files, [s1, s2, sE],
         [.fetchCall repoUrl, .scoutCall objective errorFeedback files referenceImages]⟩
      | .ok scoutLog =>
        let s3 := { s2 with missionLog := scoutLog }
        let s4 := { s3 with status := .ARCHITECT_WORKING }
        match env.runArchitectAgent scoutLog objective errorFeedback referenceImages with
        | .error e =>
          let sE := { s4 with status := .ERROR, error := some (orDefault e pipelineFallbackMsg) }
          ⟨sE, files, [s1, s2, s3, s4, sE],
           [.fetchCall repoUrl, .scoutCall objective errorFeedback files referenceImages,
            .architectCall scoutLog objective errorFeedback referenceImages]⟩
        | .ok architectLog =>
          let s5 := { s4 with missionLog := architectLog }
          let s6 := { s5 with status := .TASKMASTER_WORKING }
          match env.runTaskmasterAgent architectLog files with
          | .error e =>
            let sE := { s6 with status := .ERROR, error := some (orDefault e pipelineFallbackMsg) }
            ⟨sE, files, [s1, s2, s3, s4, s5, s6, sE],
             [.fetchCall repoUrl, .scoutCall objective errorFeedback files referenceImages,
              .architectCall scoutLog objective errorFeedback referenceImages,
              .taskmasterCall architectLog files]⟩
          | .ok finalPrompt =>
            let s7 := { s6 with status := .COMPLETED, finalPrompt := some finalPrompt }
            ⟨s7, files, [s1, s2, s3, s4, s5, s6, s7],
             [.fetchCall repoUrl, .scoutCall objective errorFeedback files referenceImages,
              .architectCall scoutLog objective errorFeedback referenceImages,
              .taskmasterCall architectLog files]⟩

/-- JavaScript truthiness of `state.finalPrompt`: `null` and the empty string
are falsy. -/
def falsyPrompt : Option String → Bool
  | none => true
  | some s => s = ""

/-- Outcome of one `executeRefinement` invocation: final committed state, the
refinement input box after the call, the `repoFilesRef` cell, and the external
calls performed. -/
structure RefineResult where
  state : AgentState
  refinementInput : String
  repoFiles : List RepoFile
  calls : List CallRec
  deriving Repr

/-- `executeRefinement` from the application module: guard on missing prompt or
empty feedback, single Refiner call, wholesale replacement of the final prompt
on success, error state on failure. -/
def executeRefinement (env : PipelineEnv) (st : AgentState) (refinementInput : String)
    (repoFilesRef : List RepoFile) : RefineResult :=
  if refinementInput = "" ∨ falsyPrompt st.finalPrompt then
    ⟨st, refinementInput, repoFilesRef, []⟩
  else
    match st.finalPrompt with
    | none => ⟨st, refinementInput, repoFilesRef, []⟩
    | some fp =>
      let s1 := { st with status := .REFINING, error := none }
      match env.runRefinerAgent fp refinementInput st.missionLog repoFilesRef with
      | .ok updatedPrompts =>
        ⟨{ s1 with status := .COMPLETED, finalPrompt := some updatedPrompts }, "",
         repoFilesRef, [.refinerCall fp refinementInput st.missionLog repoFilesRef]⟩
      | .error e =>
        ⟨{ s1 with status := .ERROR, error := some (orDefault e refineFallbackMsg) },
         refinementInput, repoFilesRef,
         [.refinerCall fp refinementInput st.missionLog repoFilesRef]⟩

/-! ## Repository fetcher (`githubService`)

Shallow embedding of `parseRepoUrl` and `fetchRepoContents`.  Network
responses are supplied by an environment: the tree endpoint returns either a
decoded tree response or an HTTP failure with a status code and status text,
and the raw-content endpoint returns either text or a swallowed failure.  The
result carries the list of network requests performed, in order. -/

structure GitHubTreeItem where
  path : String
  mode : String
  type : String
  sha : String
  size : Option Nat
  url : String
  deriving DecidableEq, Repr

structure TreeResponse where
  url : String
  tree : List GitHubTreeItem
  deriving DecidableEq, Repr

inductive HttpTree where
  | ok (resp : TreeResponse)
  | err (status : Nat) (statusText : String)
  deriving Repr

structure GithubEnv where
  fetchTree : String → HttpTree
  fetchRaw : String → Option String

/-- JavaScript `String.prototype.split` with a one-character separator. -/
def splitOnChar (sep : Char) : List Char → List (List Char)
  | [] => [[]]
  | c :: t =>
    match splitOnChar sep t with
    | [] => if c = sep then [[], []] else [[c]]
    | h :: r => if c = sep then [] :: h :: r else (c :: h) :: r

/-- The `url.replace` of `parseRepoUrl`: remove one trailing slash. -/
def stripTrailingSlash (l : List Char) : List Char :=
  match l.reverse with
  | '/' :: t => t.reverse
  | _ => l

/-- `parseRepoUrl` from `githubService`: strip one trailing slash, split on
`/`, and when at least two segments exist take the last two as owner and
repository. -/
def parseRepoUrl (url : String) : Option (String × String) :=
  let cleanUrl := stripTrailingSlash url.data
  match (splitOnChar '/' cleanUrl).reverse with
  | repoCs :: ownerCs :: _ => some (⟨ownerCs⟩, ⟨repoCs⟩)
  | _ => none

def invalidUrlMsg : String := "Invalid GitHub URL format. Use https://github.com/owner/repo"

/-- Occurrence of `sub` as a contiguous run anywhere in the list. -/
def containsSub (sub : List Char) : List Char → Bool
  | [] => sub.isEmpty
  | c :: t => sub.isPrefixOf (c :: t) || containsSub sub t

/-- JavaScript `String.prototype.includes`. -/
def jsIncludes (s sub : String) : Bool := containsSub sub.data s.data

/-- JavaScript `String.prototype.endsWith`. -/
def jsEndsWith (s suffix : String) : Bool := suffix.data.reverse.isPrefixOf s.data.reverse

def codeExtensions : List String :=
  [".ts", ".tsx", ".js", ".jsx", ".py", ".rb", ".go", ".rs", ".java", ".c",
   ".cpp", ".h", ".css", ".html", ".json", ".md"]

/-- The exclusion rule: lock files, dependency directories, build output. -/
def isExcludedPath (path : String) : Bool :=
  jsIncludes path "lock" || jsIncludes path "node_modules" ||
  jsIncludes path "dist/" || jsIncludes path "build/"

/-- The tree filter: blob entries with an allow-listed extension that are not
excluded. -/
def isRelevantFile (item : GitHubTreeItem) : Bool :=
  item.type == "blob" &&
  codeExtensions.any (fun ext => jsEndsWith item.path ext) &&
  !isExcludedPath item.path

def pathDepth (item : GitHubTreeItem) : Nat := (splitOnChar '/' item.path.data).length

/-- `comparator(a, b) <= 0` for the sort comparator of `fetchRepoContents`:
entries ending in `package.json` first, then shallower paths before deeper
ones. -/
def fileLE (a b : GitHubTreeItem) : Bool :=
  if jsEndsWith a.path "package.json" then true
  else if jsEndsWith b.path "package.json" then false
  else decide (pathDepth a ≤ pathDepth b)

/-- The comparator as a decidable relation. -/
def fileRel (a b : GitHubTreeItem) : Prop := fileLE a b = true

instance : DecidableRel fileRel := fun a b => inferInstanceAs (Decidable (fileLE a b = true))

instance : IsTotal GitHubTreeItem fileRel :=
  ⟨fun a b => by
    unfold fileRel fileLE
    by_cases pa : jsEndsWith a.path "package.json" = true
    · left; simp [pa]
    · by_cases pb : jsEndsWith b.path "package.json" = true
      · right; simp [pb]
      · rcases Nat.le_total (pathDepth a) (pathDepth b) with hle | hle
        · left; simp [pa, pb, hle]
        · right; simp [pa, pb, hle]⟩

instance : IsTrans GitHubTreeItem fileRel :=
  ⟨fun a b c hab hbc => by
    unfold fileRel fileLE at hab hbc ⊢
    by_cases pa : jsEndsWith a.path "package.json" = true
    · simp [pa]
    · by_cases pb : jsEndsWith b.path "package.json" = true
      · simp [pa, pb] at hab
      · by_cases pc : jsEndsWith c.path "package.json" = true
        · simp [pb, pc] at hbc
        · simp [pa, pb] at hab
          simp [pb, pc] at hbc
          simp [pa, pc]
          exact Nat.le_trans hab hbc⟩

/-- `Array.prototype.sort` is a stable sort by the comparator; modelled by the
stable insertion sort. -/
def sortRelevant (tree : List GitHubTreeItem) : List GitHubTreeItem :=
  List.insertionSort fileRel (tree.filter isRelevantFile)

/-- Filter, sort and cap the tree listing at 20 entries. -/
def processTree (tree : List GitHubTreeItem) : List GitHubTreeItem :=
  (sortRelevant tree).take 20

def treeUrlOf (owner repo branch : String) : String :=
  "https://api.github.com/repos/" ++ owner ++ "/" ++ repo ++ "/git/trees/" ++ branch ++
    "?recursive=1"

def rawUrlOf (owner repo branch path : String) : String :=
  "https://raw.githubusercontent.com/" ++ owner ++ "/" ++ repo ++ "/" ++ branch ++ "/" ++ path

/-- Resolve the repository tree: try `main`, fall back to `master` on a 404,
otherwise fail with the tree error message.  Also returns the requests made. -/
def resolveTree (env : GithubEnv) (owner repo : String) :
    Except String TreeResponse × List String :=
  let mainUrl := treeUrlOf owner repo "main"
  match env.fetchTree mainUrl with
  | .ok resp => (.ok resp, [mainUrl])
  | .err status statusText =>
    if status = 404 then
      let masterUrl := treeUrlOf owner repo "master"
      match env.fetchTree masterUrl with
      | .ok resp => (.ok resp, [mainUrl, masterUrl])
      | .err _ st2 =>
        (.error ("Failed to fetch repo tree: " ++ st2 ++ ". Ensure repo is public."),
         [mainUrl, masterUrl])
    else
      (.error ("Failed to fetch repo tree: " ++ statusText ++ ". Ensure repo is public."),
       [mainUrl])

/-- JavaScript `file.size || text.length`: `undefined` and `0` are falsy. -/
def sizeOrLength : Option Nat → Nat → Nat
  | some n, d => if n = 0 then d else n
  | none, d => d

/-- The branch heuristic `data.url.includes('master') ? 'master' : 'main'`. -/
def branchOf (dataUrl : String) : String :=
  if jsIncludes dataUrl "master" then "master" else "main"

/-- Fetch one file's raw content; a failed fetch is swallowed (`null`). -/
def fetchFileContent (env : GithubEnv) (owner repo branch : String)
    (file : GitHubTreeItem) : Option RepoFile :=
  match env.fetchRaw (rawUrlOf owner repo branch file.path) with
  | none => none
  | some text => some ⟨file.path, text, sizeOrLength file.size text.length⟩

structure GithubFetchResult where
  result : Except String (List RepoFile)
  requests : List String
  deriving Repr

/-- `fetchRepoContents` from `githubService`: parse the locator, resolve the
tree, filter/sort/cap it, then fetch each surviving file's raw content. -/
def fetchRepoContents (env : GithubEnv) (repoUrl : String) : GithubFetchResult :=
  match parseRepoUrl repoUrl with
  | none => ⟨.error invalidUrlMsg, []⟩
  | some (owner, repo) =>
    match resolveTree env owner repo with
    | (.error e, reqs) => ⟨.error e, reqs⟩
    | (.ok resp, reqs) =>
      let limitedFiles := processTree resp.tree
      let branch := branchOf resp.url
      ⟨.ok (limitedFiles.filterMap (fetchFileContent env owner repo branch)),
       reqs ++ limitedFiles.map (fun f => rawUrlOf owner repo branch f.path)⟩

/-! ## Concrete test environments used by the witnesses -/

/-- A pipeline environment in which every stage succeeds. -/
def testEnv : PipelineEnv where
  fetchRepoContents := fun _ => .ok [⟨"a.ts", "let x = 1", 9⟩]
  runScoutAgent := fun _ _ _ _ => .ok "SCOUT LOG"
  runArchitectAgent := fun _ _ _ _ => .ok "ARCHITECT LOG"
  runTaskmasterAgent := fun _ _ => .ok "TASK PROMPT"
  runRefinerAgent := fun _ _ _ _ => .ok "REFINED PROMPT"

/-- A pipeline environment whose Architect stage fails. -/
def archFailEnv : PipelineEnv :=
  { testEnv with runArchitectAgent := fun _ _ _ _ => .error "Architect Agent failed to plan." }

/-- A completed state holding a final prompt, for refinement witnesses. -/
def completedState : AgentState :=
  { status := .COMPLETED, missionLog := "LOG", finalPrompt := some "PROMPTS", error := none }

def testTree : List GitHubTreeItem :=
  [⟨"a.ts", "100644", "blob", "sha1", some 9, "itemurl"⟩]

def testResp : TreeResponse :=
  ⟨"https://api.github.com/repos/o/r/git/trees/main?recursive=1", testTree⟩

/-- A GitHub environment serving one fixed one-file repository. -/
def testGithubEnv : GithubEnv where
  fetchTree := fun _ => .ok testResp
  fetchRaw := fun _ => some "let x = 1"
theorem tryTitle_titleClose {s : List Char} {r} (h : tryTitle s = some r) :
    titleClose s = true := by
  induction s generalizing r with
  | nil => simp [tryTitle] at h
  | cons c t ih =>
    rw [tryTitle] at h
    rw [titleClose]
    by_cases hp : " ===".data.isPrefixOf (c :: t)
    · simp [hp]
    · simp only [hp, if_false] at h
      simp only [Bool.or_eq_true]
      by_cases hl : isLineTerm c
      · simp [hl] at h
      · simp only [hl, if_false] at h
        cases ht : tryTitle t with
        | none => rw [ht] at h; simp at h
        | some r' =>
          right
          simp [hl, ih ht]

theorem matchAt_delimCheck {s : List Char} {r} (h : matchAt s = some r) :
    delimCheck s = true := by
  unfold matchAt at h
  unfold delimCheck
  cases h1 : stripPre "=== PROMPT ".data s with
  | none => simp [h1] at h
  | some s1 =>
    simp only [h1] at h ⊢
    by_cases hd : (s1.takeWhile Char.isDigit).isEmpty
    · simp [hd] at h
    · have hd' : (s1.takeWhile Char.isDigit).isEmpty = false := by simpa using hd
      simp only [hd', Bool.false_eq_true, if_false] at h
      cases h2 : stripPre ": ".data (s1.dropWhile Char.isDigit) with
      | none => simp [h2] at h
      | some s2 =>
        simp only [h2] at h ⊢
        cases h3 : tryTitle s2 with
        | none => simp [h3] at h
        | some r' => simp [hd', tryTitle_titleClose h3]

theorem scan_eq_nil_of_no_delim : ∀ (fuel : Nat) (s : List Char),
    hasDelim s = false → scan fuel s = [] := by
  intro fuel
  induction fuel with
  | zero => intro s _; rw [scan]
  | succ n ih =>
    intro s hs
    cases s with
    | nil => rw [scan]
    | cons c t =>
      rw [hasDelim, Bool.or_eq_false_iff] at hs
      rw [scan]
      cases hm : matchAt (c :: t) with
      | some r => exact absurd (matchAt_delimCheck hm) (by simp [hs.1])
      | none => exact ih t hs.2


/-! ## Claim theorems -/

/-- C1 (behaviour of the code at a failing input): on an input with exactly one
well-formed delimiter line `=== PROMPT 1: A ===` whose trailing content holds
no letter z, `parsePrompts` does not return one chunk per delimiter with the
delimiter's id/title; it returns the synthetic fallback chunk whose content is
the whole input, delimiter line included.  The regex token `\z` matches a
literal z in JavaScript, so the lookahead after the last chunk never
succeeds. -/
theorem parsePrompts_c1_failing_input :
    parsePrompts "=== PROMPT 1: A ===\nhello" =
      [⟨"1", "Complete Mission", "=== PROMPT 1: A ===\nhello"⟩] := by decide

/-- C2 (behaviour of the code at the specified input): the spec's scenario
input parses to a single chunk `{id 1, title Setup, content Do X}` rather than
the specified two chunks: the second match requires a following `=== PROMPT`
or a literal z, and `\nDo Y\n` holds neither, so the `PROMPT 2` delimiter
yields no match. -/
theorem parsePrompts_c2_failing_input :
    parsePrompts "=== PROMPT 1: Setup ===\nDo X\n=== PROMPT 2: Build ===\nDo Y\n" =
      [⟨"1", "Setup", "Do X"⟩] := by decide

/-- C3: an input in which no delimiter of the shape
`=== PROMPT <number>: <title> ===` occurs anywhere parses to exactly one
chunk with id `1`, title `Complete Mission`, and the entire input as
content. -/
theorem parsePrompts_no_delimiters (text : String) (h : hasDelim text.data = false) :
    parsePrompts text = [⟨"1", "Complete Mission", text⟩] := by
  unfold parsePrompts
  rw [scan_eq_nil_of_no_delim _ _ h]
  rfl

/-- Witness for C3 at the concrete delimiter-free input `hello world`. -/
theorem parsePrompts_no_delimiters_witness :
    hasDelim "hello world".data = false ∧
      parsePrompts "hello world" = [⟨"1", "Complete Mission", "hello world"⟩] :=
  ⟨by decide, parsePrompts_no_delimiters "hello world" (by decide)⟩

/-- C4: with an empty repository locator or an empty objective,
`executePipeline` is a no-op: the state (status, mission log, final prompt,
error) is returned unchanged, no state is committed, and no external call is
performed. -/
theorem executePipeline_empty_input_noop (env : PipelineEnv)
    (repoUrl objective errorFeedback : String) (images : List ImageRef)
    (st : AgentState) (filesRef : List RepoFile)
    (h : repoUrl = "" ∨ objective = "") :
    executePipeline env repoUrl objective errorFeedback images st filesRef =
      ⟨st, filesRef, [], []⟩ := by
  unfold executePipeline
  rw [if_pos h]

/-- Witness for C4 with an empty locator and a non-empty objective. -/
theorem executePipeline_empty_input_noop_witness :
    ("" = "" ∨ "obj" = "") ∧
      executePipeline testEnv "" "obj" "" [] initialAgentState [] =
        ⟨initialAgentState, [], [], []⟩ :=
  ⟨Or.inl rfl,
   executePipeline_empty_input_noop testEnv "" "obj" "" [] initialAgentState [] (Or.inl rfl)⟩

/-- C5: with non-empty inputs and fetch, Scout, Architect and Taskmaster all
succeeding, the pipeline first commits the reset state (initial manifesto log,
cleared prompt and error), invokes the four calls strictly in order with each
stage's input exactly the previous stage's output, commits the corresponding
working status as each stage begins, threads Scout's and Architect's outputs
through the mission log, and ends completed with the Taskmaster output as the
non-null final prompt. -/
theorem executePipeline_success_spec (env : PipelineEnv)
    (repoUrl objective errorFeedback : String) (images : List ImageRef)
    (st : AgentState) (filesRef files : List RepoFile)
    (scoutLog architectLog taskPrompt : String)
    (hu : repoUrl ≠ "") (ho : objective ≠ "")
    (hf : env.fetchRepoContents repoUrl = .ok files)
    (hs : env.runScoutAgent objective errorFeedback files images = .ok scoutLog)
    (ha : env.runArchitectAgent scoutLog objective errorFeedback images = .ok architectLog)
    (ht : env.runTaskmasterAgent architectLog files = .ok taskPrompt) :
    executePipeline env repoUrl objective errorFeedback images st filesRef =
      ⟨⟨.COMPLETED, architectLog, some taskPrompt, none⟩, files,
       [⟨.FETCHING_REPO, INITIAL_MISSION_LOG, none, none⟩,
        ⟨.SCOUT_WORKING, INITIAL_MISSION_LOG, none, none⟩,
        ⟨.SCOUT_WORKING, scoutLog, none, none⟩,
        ⟨.ARCHITECT_WORKING, scoutLog, none, none⟩,
        ⟨.ARCHITECT_WORKING, architectLog, none, none⟩,
        ⟨.TASKMASTER_WORKING, architectLog, none, none⟩,
        ⟨.COMPLETED, architectLog, some taskPrompt, none⟩],
       [.fetchCall repoUrl, .scoutCall objective errorFeedback files images,
        .architectCall scoutLog objective errorFeedback images,
        .taskmasterCall architectLog files]⟩ := by
  unfold executePipeline
  rw [if_neg (by simp [hu, ho])]
  simp only [hf, hs, ha, ht]

/-- Witness for C5 in the all-success environment. -/
theorem executePipeline_success_spec_witness :
    ("url" ≠ "" ∧ "obj" ≠ "") ∧
      executePipeline testEnv "url" "obj" "" [] initialAgentState [] =
        ⟨⟨.COMPLETED, "ARCHITECT LOG", some "TASK PROMPT", none⟩,
         [⟨"a.ts", "let x = 1", 9⟩],
         [⟨.FETCHING_REPO, INITIAL_MISSION_LOG, none, none⟩,
          ⟨.SCOUT_WORKING, INITIAL_MISSION_LOG, none, none⟩,
          ⟨.SCOUT_WORKING, "SCOUT LOG", none, none⟩,
          ⟨.ARCHITECT_WORKING, "SCOUT LOG", none, none⟩,
          ⟨.ARCHITECT_WORKING, "ARCHITECT LOG", none, none⟩,
          ⟨.TASKMASTER_WORKING, "ARCHITECT LOG", none, none⟩,
          ⟨.COMPLETED, "ARCHITECT LOG", some "TASK PROMPT", none⟩],
         [.fetchCall "url", .scoutCall "obj" "" [⟨"a.ts", "let x = 1", 9⟩] [],
          .architectCall "SCOUT LOG" "obj" "" [],
          .taskmasterCall "ARCHITECT LOG" [⟨"a.ts", "let x = 1", 9⟩]]⟩ :=
  ⟨⟨by decide, by decide⟩,
   executePipeline_success_spec testEnv "url" "obj" "" [] initialAgentState []
     [⟨"a.ts", "let x = 1", 9⟩] "SCOUT LOG" "ARCHITECT LOG" "TASK PROMPT"
     (by decide) (by decide) rfl rfl rfl rfl⟩

/-- C6: whenever the fetch or a stage call fails, the pipeline commits the
error status with the stored message and performs no further call, leaving the
mission log and final prompt at exactly the values they held at the moment of
failure; in particular on Architect failure the final prompt is still null,
the mission log is Scout's output, and the Taskmaster is never invoked. -/
theorem executePipeline_failure_spec (env : PipelineEnv)
    (repoUrl objective errorFeedback : String) (images : List ImageRef)
    (st : AgentState) (filesRef : List RepoFile)
    (hu : repoUrl ≠ "") (ho : objective ≠ "") :
    (∀ e, env.fetchRepoContents repoUrl = .error e →
      executePipeline env repoUrl objective errorFeedback images st filesRef =
        ⟨⟨.ERROR, INITIAL_MISSION_LOG, none, some (orDefault e pipelineFallbackMsg)⟩, filesRef,
         [⟨.FETCHING_REPO, INITIAL_MISSION_LOG, none, none⟩,
          ⟨.ERROR, INITIAL_MISSION_LOG, none, some (orDefault e pipelineFallbackMsg)⟩],
         [.fetchCall repoUrl]⟩) ∧
    (∀ files e, env.fetchRepoContents repoUrl = .ok files →
      env.runScoutAgent objective errorFeedback files images = .error e →
      executePipeline env repoUrl objective errorFeedback images st filesRef =
        ⟨⟨.ERROR, INITIAL_MISSION_LOG, none, some (orDefault e pipelineFallbackMsg)⟩, files,
         [⟨.FETCHING_REPO, INITIAL_MISSION_LOG, none, none⟩,
          ⟨.SCOUT_WORKING, INITIAL_MISSION_LOG, none, none⟩,
          ⟨.ERROR, INITIAL_MISSION_LOG, none, some (orDefault e pipelineFallbackMsg)⟩],
         [.fetchCall repoUrl, .scoutCall objective errorFeedback files images]⟩) ∧
    (∀ files scoutLog e, env.fetchRepoContents repoUrl = .ok files →
      env.runScoutAgent objective errorFeedback files images = .ok scoutLog →
      env.runArchitectAgent scoutLog objective errorFeedback images = .error e →
      executePipeline env repoUrl objective errorFeedback images st filesRef =
        ⟨⟨.ERROR, scoutLog, none, some (orDefault e pipelineFallbackMsg)⟩, files,
         [⟨.FETCHING_REPO, INITIAL_MISSION_LOG, none, none⟩,
          ⟨.SCOUT_WORKING, INITIAL_MISSION_LOG, none, none⟩,
          ⟨.SCOUT_WORKING, scoutLog, none, none⟩,
          ⟨.ARCHITECT_WORKING, scoutLog, none, none⟩,
          ⟨.ERROR, scoutLog, none, some (orDefault e pipelineFallbackMsg)⟩],
         [.fetchCall repoUrl, .scoutCall objective errorFeedback files images,
          .architectCall scoutLog objective errorFeedback images]⟩) ∧
    (∀ files scoutLog architectLog e, env.fetchRepoContents repoUrl = .ok files →
      env.runScoutAgent objective errorFeedback files images = .ok scoutLog →
      env.runArchitectAgent scoutLog objective errorFeedback images = .ok architectLog →
      env.runTaskmasterAgent architectLog files = .error e →
      executePipeline env repoUrl objective errorFeedback images st filesRef =
        ⟨⟨.ERROR, architectLog, none, some (orDefault e pipelineFallbackMsg)⟩, files,
         [⟨.FETCHING_REPO, INITIAL_MISSION_LOG, none, none⟩,
          ⟨.SCOUT_WORKING, INITIAL_MISSION_LOG, none, none⟩,
          ⟨.SCOUT_WORKING, scoutLog, none, none⟩,
          ⟨.ARCHITECT_WORKING, scoutLog, none, none⟩,
          ⟨.ARCHITECT_WORKING, architectLog, none, none⟩,
          ⟨.TASKMASTER_WORKING, architectLog, none, none⟩,
          ⟨.ERROR, architectLog, none, some (orDefault e pipelineFallbackMsg)⟩],
         [.fetchCall repoUrl, .scoutCall objective errorFeedback files images,
          .architectCall scoutLog objective errorFeedback images,
          .taskmasterCall architectLog files]⟩) := by
  refine ⟨?_, ?_, ?_, ?_⟩
  · intro e hf
    unfold executePipeline
    rw [if_neg (by simp [hu, ho])]
    simp only [hf]
  · intro files e hf hs
    unfold executePipeline
    rw [if_neg (by simp [hu, ho])]
    simp only [hf, hs]
  · intro files scoutLog e hf hs ha
    unfold executePipeline
    rw [if_neg (by simp [hu, ho])]
    simp only [hf, hs, ha]
  · intro files scoutLog architectLog e hf hs ha ht
    unfold executePipeline
    rw [if_neg (by simp [hu, ho])]
    simp only [hf, hs, ha, ht]

/-- Witness for C6: the Architect-failure branch in the concrete environment
whose Architect call rejects. -/
theorem executePipeline_failure_spec_witness :
    ("url" ≠ "" ∧ "obj" ≠ "") ∧
      executePipeline archFailEnv "url" "obj" "" [] initialAgentState [] =
        ⟨⟨.ERROR, "SCOUT LOG", none, some "Architect Agent failed to plan."⟩,
         [⟨"a.ts", "let x = 1", 9⟩],
         [⟨.FETCHING_REPO, INITIAL_MISSION_LOG, none, none⟩,
          ⟨.SCOUT_WORKING, INITIAL_MISSION_LOG, none, none⟩,
          ⟨.SCOUT_WORKING, "SCOUT LOG", none, none⟩,
          ⟨.ARCHITECT_WORKING, "SCOUT LOG", none, none⟩,
          ⟨.ERROR, "SCOUT LOG", none, some "Architect Agent failed to plan."⟩],
         [.fetchCall "url", .scoutCall "obj" "" [⟨"a.ts", "let x = 1", 9⟩] [],
          .architectCall "SCOUT LOG" "obj" "" []]⟩ :=
  ⟨⟨by decide, by decide⟩,
   (executePipeline_failure_spec archFailEnv "url" "obj" "" [] initialAgentState []
       (by decide) (by decide)).2.2.1
     [⟨"a.ts", "let x = 1", 9⟩] "SCOUT LOG" "Architect Agent failed to plan." rfl rfl rfl⟩

/-- C7: `executeRefinement` is a no-op (state returned unchanged, no Refiner
call) when the feedback is empty or no final prompt exists; when it runs, a
successful Refiner call wholesale-replaces the final prompt with its return
value, restores the completed status and clears the feedback input, while a
failed Refiner call yields the error status with the stored message and leaves
the final prompt unchanged. -/
theorem executeRefinement_spec (env : PipelineEnv) (st : AgentState)
    (refinementInput : String) (files : List RepoFile) :
    (refinementInput = "" ∨ st.finalPrompt = none →
      executeRefinement env st refinementInput files = ⟨st, refinementInput, files, []⟩) ∧
    (∀ fp, st.finalPrompt = some fp → fp ≠ "" → refinementInput ≠ "" →
      (∀ updated, env.runRefinerAgent fp refinementInput st.missionLog files = .ok updated →
        executeRefinement env st refinementInput files =
          ⟨⟨.COMPLETED, st.missionLog, some updated, none⟩, "", files,
           [.refinerCall fp refinementInput st.missionLog files]⟩) ∧
      (∀ e, env.runRefinerAgent fp refinementInput st.missionLog files = .error e →
        executeRefinement env st refinementInput files =
          ⟨⟨.ERROR, st.missionLog, some fp, some (orDefault e refineFallbackMsg)⟩,
           refinementInput, files, [.refinerCall fp refinementInput st.missionLog files]⟩)) := by
  constructor
  · intro h
    unfold executeRefinement
    rw [if_pos]
    rcases h with h | h
    · exact Or.inl h
    · exact Or.inr (by simp [falsyPrompt, h])
  · intro fp hfp hne hri
    have hcond : ¬(refinementInput = "" ∨ falsyPrompt st.finalPrompt = true) := by
      simp [falsyPrompt, hfp, hne, hri]
    constructor
    · intro updated hok
      unfold executeRefinement
      rw [if_neg hcond]
      rw [hfp]
      simp only [hok]
    · intro e herr
      unfold executeRefinement
      rw [if_neg hcond]
      rw [hfp]
      simp only [herr]

/-- Witness for C7: the successful-refinement branch at a completed state. -/
theorem executeRefinement_spec_witness :
    (completedState.finalPrompt = some "PROMPTS" ∧ "fix step 2" ≠ "") ∧
      executeRefinement testEnv completedState "fix step 2" [] =
        ⟨⟨.COMPLETED, "LOG", some "REFINED PROMPT", none⟩, "", [],
         [.refinerCall "PROMPTS" "fix step 2" "LOG" []]⟩ :=
  ⟨⟨rfl, by decide⟩,
   ((executeRefinement_spec testEnv completedState "fix step 2" []).2 "PROMPTS" rfl
       (by decide) (by decide)).1 "REFINED PROMPT" rfl⟩

/-- C8: every Refiner invocation receives the current final prompt, the
feedback, the current mission log and the retained file list; across every
invocation the mission log and the file reference are unchanged and no call
other than the single Refiner call (in particular no fetch) is performed. -/
theorem executeRefinement_frame (env : PipelineEnv) (st : AgentState)
    (feedback : String) (files : List RepoFile) :
    (executeRefinement env st feedback files).repoFiles = files ∧
    (executeRefinement env st feedback files).state.missionLog = st.missionLog ∧
    ((executeRefinement env st feedback files).calls = [] ∨
      ∃ fp, st.finalPrompt = some fp ∧
        (executeRefinement env st feedback files).calls =
          [.refinerCall fp feedback st.missionLog files]) := by
  unfold executeRefinement
  by_cases h : feedback = "" ∨ falsyPrompt st.finalPrompt = true
  · rw [if_pos h]
    exact ⟨rfl, rfl, Or.inl rfl⟩
  · rw [if_neg h]
    have hfa : falsyPrompt st.finalPrompt = false := by
      by_contra hb
      exact h (Or.inr (by simpa using hb))
    obtain ⟨fp, hfp⟩ : ∃ fp, st.finalPrompt = some fp := by
      cases hf : st.finalPrompt with
      | none => rw [hf] at hfa; simp [falsyPrompt] at hfa
      | some fp => exact ⟨fp, rfl⟩
    rw [hfp]
    cases hr : env.runRefinerAgent fp feedback st.missionLog files with
    | ok u =>
      simp only [hr]
      exact ⟨trivial, trivial, Or.inr ⟨fp, rfl, rfl⟩⟩
    | error e =>
      simp only [hr]
      exact ⟨trivial, trivial, Or.inr ⟨fp, rfl, rfl⟩⟩

theorem sortRelevant_perm (tree : List GitHubTreeItem) :
    List.Perm (sortRelevant tree) (tree.filter isRelevantFile) :=
  List.perm_insertionSort fileRel (tree.filter isRelevantFile)

theorem sortRelevant_sorted (tree : List GitHubTreeItem) :
    List.Sorted fileRel (sortRelevant tree) :=
  List.sorted_insertionSort fileRel (tree.filter isRelevantFile)

theorem fileRel_spec {a b : GitHubTreeItem} (h : fileRel a b) :
    (jsEndsWith b.path "package.json" = true → jsEndsWith a.path "package.json" = true) ∧
    (jsEndsWith a.path "package.json" = false → jsEndsWith b.path "package.json" = false →
      pathDepth a ≤ pathDepth b) := by
  unfold fileRel fileLE at h
  by_cases pa : jsEndsWith a.path "package.json" = true
  · exact ⟨fun _ => pa, fun ha _ => absurd pa (by simp [ha])⟩
  · by_cases pb : jsEndsWith b.path "package.json" = true
    · simp [pa, pb] at h
    · have hd : pathDepth a ≤ pathDepth b := by simpa [pa, pb] using h
      exact ⟨fun hb => absurd hb pb, fun _ _ => hd⟩

theorem fetchFileContent_path {env : GithubEnv} {owner repo branch : String}
    {i : GitHubTreeItem} {r : RepoFile}
    (h : fetchFileContent env owner repo branch i = some r) : r.path = i.path := by
  unfold fetchFileContent at h
  cases hr : env.fetchRaw (rawUrlOf owner repo branch i.path) with
  | none => rw [hr] at h; simp at h
  | some text =>
    rw [hr] at h
    simp only [Option.some.injEq] at h
    rw [← h]

theorem filterMap_path_sublist (g : GitHubTreeItem → Option RepoFile)
    (hg : ∀ i r, g i = some r → r.path = i.path) :
    ∀ l : List GitHubTreeItem,
      List.Sublist ((l.filterMap g).map (fun f => f.path)) (l.map (fun i => i.path)) := by
  intro l
  induction l with
  | nil => simp
  | cons i t ih =>
    rw [List.filterMap_cons, List.map_cons]
    cases hgi : g i with
    | none => exact ih.cons _
    | some r =>
      rw [List.map_cons, hg i r hgi]
      exact ih.cons₂ _

/-- C9: on a repository locator in which the parser recognises no owner/repo
segments, `fetchRepoContents` fails with the invalid-URL error message and
performs no network request at all. -/
theorem fetchRepoContents_invalid_url (env : GithubEnv) (url : String)
    (h : parseRepoUrl url = none) :
    fetchRepoContents env url = ⟨.error invalidUrlMsg, []⟩ := by
  unfold fetchRepoContents
  rw [h]

/-- Witness for C9 at the slash-free locator `github.com`. -/
theorem fetchRepoContents_invalid_url_witness :
    parseRepoUrl "github.com" = none ∧
      fetchRepoContents testGithubEnv "github.com" = ⟨.error invalidUrlMsg, []⟩ :=
  ⟨by decide, fetchRepoContents_invalid_url testGithubEnv "github.com" (by decide)⟩

/-- C10: whenever `fetchRepoContents` succeeds on a tree listing, it returns at
most 20 files, every returned file path carries an allow-listed extension and
no excluded substring, the returned paths are (in order) a sublist of the
capped selection, and that selection is drawn from a reordering of the
relevant entries sorted so that `package.json` manifests come first and
shallower paths precede deeper ones. -/
theorem fetchRepoContents_filter_sort_cap (env : GithubEnv) (url owner repo : String)
    (resp : TreeResponse) (files : List RepoFile) (reqs : List String)
    (hp : parseRepoUrl url = some (owner, repo))
    (ht : resolveTree env owner repo = (.ok resp, reqs))
    (hr : (fetchRepoContents env url).result = .ok files) :
    files.length ≤ 20 ∧
    (∀ f ∈ files, codeExtensions.any (fun ext => jsEndsWith f.path ext) = true ∧
      isExcludedPath f.path = false) ∧
    List.Sublist (files.map (fun f => f.path)) ((processTree resp.tree).map (fun i => i.path)) ∧
    List.Perm (sortRelevant resp.tree) (resp.tree.filter isRelevantFile) ∧
    (sortRelevant resp.tree).Pairwise (fun a b =>
      (jsEndsWith b.path "package.json" = true → jsEndsWith a.path "package.json" = true) ∧
      (jsEndsWith a.path "package.json" = false → jsEndsWith b.path "package.json" = false →
        pathDepth a ≤ pathDepth b)) := by
  unfold fetchRepoContents at hr
  simp only [hp, ht, Except.ok.injEq] at hr
  subst hr
  refine ⟨?_, ?_, ?_, sortRelevant_perm resp.tree, ?_⟩
  · calc ((processTree resp.tree).filterMap
        (fetchFileContent env owner repo (branchOf resp.url))).length
        ≤ (processTree resp.tree).length := List.length_filterMap_le _ _
      _ ≤ 20 := by
          unfold processTree
          rw [List.length_take]
          exact min_le_left _ _
  · intro f hf
    obtain ⟨i, hi, hgi⟩ := List.mem_filterMap.mp hf
    have hpath := fetchFileContent_path hgi
    unfold processTree at hi
    have hmem : i ∈ resp.tree.filter isRelevantFile :=
      (sortRelevant_perm resp.tree).subset ((List.take_sublist _ _).subset hi)
    have hrel : isRelevantFile i = true := (List.mem_filter.mp hmem).2
    unfold isRelevantFile at hrel
    simp only [Bool.and_eq_true, Bool.not_eq_true'] at hrel
    rw [hpath]
    exact ⟨hrel.1.2, hrel.2⟩
  · exact filterMap_path_sublist _ (fun i r h => fetchFileContent_path h) _
  · exact List.Pairwise.imp (fun h => fileRel_spec h) (sortRelevant_sorted resp.tree)

/-- Witness for C10 at the fixed one-file repository environment. -/
theorem fetchRepoContents_filter_sort_cap_witness :
    parseRepoUrl "https://github.com/o/r" = some ("o", "r") ∧
      ([⟨"a.ts", "let x = 1", 9⟩] : List RepoFile).length ≤ 20 :=
  ⟨by decide,
   (fetchRepoContents_filter_sort_cap testGithubEnv "https://github.com/o/r" "o" "r"
       testResp [⟨"a.ts", "let x = 1", 9⟩] [treeUrlOf "o" "r" "main"]
       (by decide) rfl rfl).1⟩

end VibeArch
